import Mathlib

/-!
Verification development for the gesture-driven morphing particle engine
(point-cloud builder, gesture classifier/stabilizer, particle integrator).

The TypeScript sources are shallowly embedded here:
* JavaScript numbers are modelled by `JNum`: an exact rational together with
  the three non-finite values `+Infinity`, `-Infinity`, `NaN`.  Quantities that
  stay finite on every path of interest (e.g. the transition progress) are
  modelled directly by `ℚ`.
* `Math.random()` draws are modelled by oracle functions returning rationals
  (every value `Math.random` can produce is a finite double).
* `Math.cos` / `Math.sin` are modelled by oracle functions (`ℚ → JNum`), and
  `Math.sqrt` in the hand-speed computation by an oracle `ℚ → ℚ`; the theorems
  hold for arbitrary oracles.
* The DOM / promise machinery of the builder is modelled by an explicit event
  list processed against the `safeResolve` guard, exactly as in the source.
-/

/-- Gesture kinds, from `types.ts` (`enum GestureType`). -/
inductive GestureType where
  | NONE
  | OPEN_PALM
  | CLOSED_FIST
  | PINCH
deriving DecidableEq, Repr

/-- JavaScript number semantics: a finite (exact rational) value, `+Infinity`,
`-Infinity`, or `NaN`. -/
inductive JNum where
  | fin (q : ℚ)
  | pinf
  | ninf
  | nan
deriving DecidableEq, Repr

/-- `Number.isFinite`. -/
def JNum.isFinite : JNum → Bool
  | .fin _ => true
  | _ => false

/-- JavaScript addition. -/
def jadd : JNum → JNum → JNum
  | .nan, _ => .nan
  | _, .nan => .nan
  | .fin a, .fin b => .fin (a + b)
  | .fin _, .pinf => .pinf
  | .pinf, .fin _ => .pinf
  | .fin _, .ninf => .ninf
  | .ninf, .fin _ => .ninf
  | .pinf, .pinf => .pinf
  | .ninf, .ninf => .ninf
  | .pinf, .ninf => .nan
  | .ninf, .pinf => .nan

/-- JavaScript negation. -/
def jneg : JNum → JNum
  | .fin a => .fin (-a)
  | .pinf => .ninf
  | .ninf => .pinf
  | .nan => .nan

/-- JavaScript subtraction. -/
def jsub (a b : JNum) : JNum := jadd a (jneg b)

/-- JavaScript multiplication (`0 * Infinity = NaN`). -/
def jmul : JNum → JNum → JNum
  | .nan, _ => .nan
  | _, .nan => .nan
  | .fin a, .fin b => .fin (a * b)
  | .fin a, .pinf => if 0 < a then .pinf else if a < 0 then .ninf else .nan
  | .fin a, .ninf => if 0 < a then .ninf else if a < 0 then .pinf else .nan
  | .pinf, .fin b => if 0 < b then .pinf else if b < 0 then .ninf else .nan
  | .ninf, .fin b => if 0 < b then .ninf else if b < 0 then .pinf else .nan
  | .pinf, .pinf => .pinf
  | .pinf, .ninf => .ninf
  | .ninf, .pinf => .ninf
  | .ninf, .ninf => .pinf

/-- JavaScript division (division by the rational zero behaves like division by
`+0`: `x/0` is `±Infinity` for `x ≠ 0` and `0/0` is `NaN`). -/
def jdiv : JNum → JNum → JNum
  | .nan, _ => .nan
  | _, .nan => .nan
  | .fin a, .fin b =>
      if b ≠ 0 then .fin (a / b)
      else if 0 < a then .pinf else if a < 0 then .ninf else .nan
  | .fin _, .pinf => .fin 0
  | .fin _, .ninf => .fin 0
  | .pinf, .fin b => if 0 ≤ b then .pinf else .ninf
  | .ninf, .fin b => if 0 ≤ b then .ninf else .pinf
  | .pinf, .pinf => .nan
  | .pinf, .ninf => .nan
  | .ninf, .pinf => .nan
  | .ninf, .ninf => .nan

/-- JavaScript `<` comparison (`false` whenever `NaN` is involved). -/
def jlt : JNum → JNum → Bool
  | .nan, _ => false
  | _, .nan => false
  | .fin a, .fin b => decide (a < b)
  | .ninf, .ninf => false
  | .ninf, _ => true
  | _, .ninf => false
  | .pinf, _ => false
  | .fin _, .pinf => true

/-- JavaScript `Math.min` (propagates `NaN`). -/
def jmin : JNum → JNum → JNum
  | .nan, _ => .nan
  | _, .nan => .nan
  | .fin a, .fin b => .fin (min a b)
  | .ninf, _ => .ninf
  | _, .ninf => .ninf
  | .pinf, x => x
  | x, .pinf => x

/-- JavaScript `Math.abs`. -/
def jabs : JNum → JNum
  | .fin a => .fin |a|
  | .pinf => .pinf
  | .ninf => .pinf
  | .nan => .nan

/-- `three.js` `MathUtils.lerp(x, y, t) = (1 - t) * x + t * y`, over `JNum`. -/
def jlerp (x y t : JNum) : JNum := jadd (jmul (jsub (.fin 1) t) x) (jmul t y)

/-- The exact rational value of the double `Math.PI`. -/
def PI_JS : ℚ := 7074237752028440 / 2251799813685248

/-- `CONFIG.PARTICLE_COUNT` from `constants.ts`. -/
def PARTICLE_COUNT : ℕ := 25000

/-- `SCALE_Y` from `geometry.ts` (`generateAll`): height of the image shape. -/
def SCALE_Y : ℚ := 18

/- ### Gesture classifier and stabilizer (`HandTracker.tsx`) -/

/-- `STABILITY_FRAMES` from `HandTracker.tsx`. -/
def STABILITY_FRAMES : ℕ := 5

/-- The last `n` entries of a list (JavaScript `slice(-n)`: the whole list when
it is shorter than `n`). -/
def lastN (n : ℕ) (l : List α) : List α := l.drop (l.length - n)

/-- The stabilizer state: the bounded raw-gesture history
(`gestureHistoryRef`) and the confirmed gesture (`lastConfirmedGestureRef`). -/
structure StabState where
  history : List GestureType
  confirmed : GestureType
deriving DecidableEq, Repr

/-- The stabilizer state at session start (both refs are freshly
initialized: empty history, confirmed `NONE`). -/
def stabInit : StabState := ⟨[], .NONE⟩

/-- One stabilization update from `predictWebcam` (`HandTracker.tsx` lines
202-213): push the raw gesture, evict the oldest when the history exceeds
`STABILITY_FRAMES`, then update the confirmed gesture when all five entries
agree with the raw value (`allMatch`) or when the raw value is `NONE` and the
last three entries are `NONE` (`quickLost`). -/
def stabStep (s : StabState) (raw : GestureType) : StabState :=
  let h1 := s.history ++ [raw]
  let h2 := if STABILITY_FRAMES < h1.length then h1.drop 1 else h1
  let allMatch := h2.length == STABILITY_FRAMES && h2.all (· == raw)
  let quickLost := raw == GestureType.NONE && (lastN 3 h2).all (· == GestureType.NONE)
  { history := h2, confirmed := if allMatch || quickLost then raw else s.confirmed }

/-- Feed a sequence of raw classifications through the stabilizer. -/
def stabRun (s : StabState) (l : List GestureType) : StabState := l.foldl stabStep s

/-- The raw-gesture sequence used by the debounce property: four `OPEN_PALM`,
one `CLOSED_FIST`, four `OPEN_PALM`. -/
def debounceSeq : List GestureType :=
  [.OPEN_PALM, .OPEN_PALM, .OPEN_PALM, .OPEN_PALM, .CLOSED_FIST,
   .OPEN_PALM, .OPEN_PALM, .OPEN_PALM, .OPEN_PALM]

/- ### Particle integrator: transition progress (`Experience.tsx`) -/

/-- One per-frame update of `transitionProgress` (`Experience.tsx` lines
73-98): `safeDelta = min(delta, 0.05)`, target `1` for `OPEN_PALM` and `0`
otherwise, lerp speed `1.5` when opening and `2.5` when closing, and the
snap-to-zero of values below `0.001`. -/
def stepProgress (p : ℚ) (gesture : GestureType) (delta : ℚ) : ℚ :=
  let safeDelta := min delta (1/20)
  let targetT : ℚ := if gesture = GestureType.OPEN_PALM then 1 else 0
  let lerpSpeed : ℚ := if 1/2 < targetT then 3/2 else 5/2
  let p1 := (1 - safeDelta * lerpSpeed) * p + safeDelta * lerpSpeed * targetT
  if p1 < 1/1000 then 0 else p1

/-- `transitionProgress` after a sequence of frames (gesture and `delta` per
frame), starting from its initial value `0`. -/
def runProgress (steps : List (GestureType × ℚ)) : ℚ :=
  steps.foldl (fun p st => stepProgress p st.1 st.2) 0

/- ### Particle integrator: per-frame color write (`Experience.tsx`) -/

/-- The per-frame color write (`Experience.tsx` lines 217-237), starting at
particle index `i`: each output color is rebuilt from the immutable base
color; every tenth particle gets an additive white boost of
`min(velocity * smoothT, 1.2)` when `smoothT > 0.1` and `velocity > 0.1`. -/
def writeColors (smoothT velocity : ℚ) : ℕ → List (ℚ × ℚ × ℚ) → List (ℚ × ℚ × ℚ)
  | _, [] => []
  | i, c :: rest =>
    let c' := if i % 10 = 0 ∧ 1/10 < smoothT ∧ 1/10 < velocity then
        let boost := min (velocity * smoothT) (6/5)
        (c.1 + boost, c.2.1 + boost, c.2.2 + boost)
      else c
    c' :: writeColors smoothT velocity (i + 1) rest

/- ### Particle integrator: velocity update (`Experience.tsx`) -/

/-- The latest hand frame as read by the integrator (`HandData`). -/
structure HandInput where
  isDetected : Bool
  x : ℚ
  y : ℚ

/-- Target velocity from hand motion (`Experience.tsx` lines 102-125): zero
when the hand is absent or newly detected; otherwise the planar displacement
divided by `safeDelta`, capped at `5.0` and scaled by `1.5`.  `Math.sqrt` is
an oracle `sqrtO`. -/
def targetVelocityOf (hand : HandInput) (wasDetected : Bool) (prevX prevY : ℚ)
    (sqrtO : ℚ → ℚ) (safeDelta : ℚ) : JNum :=
  if hand.isDetected then
    if !wasDetected then .fin 0
    else
      let dx := hand.x - prevX
      let dy := hand.y - prevY
      let dist := sqrtO (dx * dx + dy * dy)
      let handSpeed := jmin (jdiv (.fin dist) (.fin safeDelta)) (.fin 5)
      jmul handSpeed (.fin (3/2))
  else .fin 0

/-- The easing step of the velocity update (`Experience.tsx` lines 128-131):
asymmetric friction factor (`4.0` when decaying, `2.0` when accelerating) and
the `lerp` toward the target. -/
def easeVelocity (v : ℚ) (tv : JNum) (safeDelta : ℚ) : JNum :=
  let factor : ℚ := if jlt tv (.fin v) then 4 else 2
  jlerp (.fin v) tv (.fin (safeDelta * factor))

/-- The guards after the easing step (`Experience.tsx` lines 134-138): snap
values below `0.01` to zero, cap at `3.0`, and reset `NaN` to zero. -/
def clampVelocity (v : JNum) : JNum :=
  let v2 := if jlt v (.fin (1/100)) then JNum.fin 0 else v
  let v3 := if jlt (.fin 3) v2 then JNum.fin 3 else v2
  if v3 = JNum.nan then .fin 0 else v3

/-- The complete per-frame velocity update. -/
def stepVelocity (v : ℚ) (hand : HandInput) (wasDetected : Bool) (prevX prevY : ℚ)
    (sqrtO : ℚ → ℚ) (delta : ℚ) : JNum :=
  let safeDelta := min delta (1/20)
  clampVelocity (easeVelocity v (targetVelocityOf hand wasDetected prevX prevY sqrtO safeDelta) safeDelta)

/- ### Particle integrator: per-axis safety bound (`Experience.tsx`) -/

/-- The per-axis safety bound (`Experience.tsx` lines 210-213): a computed
coordinate that is non-finite or of magnitude above `200` is replaced by the
particle's image-target coordinate for that axis. -/
def safeBound (v d : JNum) : JNum :=
  if v.isFinite = false ∨ jlt (.fin 200) (jabs v) = true then d else v

/-- The position-buffer write of one frame: every particle's computed
coordinates are passed through `safeBound` against its own image-target
(`targetTree`) coordinates, independently of all other particles. -/
def writeFramePositions (computed tree : List (JNum × JNum × JNum)) :
    List (JNum × JNum × JNum) :=
  List.zipWith
    (fun c d => (safeBound c.1 d.1, safeBound c.2.1 d.2.1, safeBound c.2.2 d.2.2))
    computed tree

/- ### Point-cloud builder (`geometry.ts`, `generateParticlesFromImage`) -/

/-- Pixel-buffer access: a read past the end of the buffer yields JavaScript
`undefined`, which behaves as `NaN` in arithmetic. -/
def pix (d : List ℕ) (k : ℕ) : JNum :=
  match d[k]? with
  | some v => .fin v
  | none => .nan

/-- The coordinate sanitization of `generateAll`
(`if (!Number.isFinite(v)) v = 0`). -/
def sanitize0 (v : JNum) : JNum := if v.isFinite then v else .fin 0

/-- The color sanitization of `generateAll`
(`Number.isFinite(c) ? c : 1`). -/
def sanitizeC (v : JNum) : JNum := if v.isFinite then v else .fin 1

/-- The image branch of the per-particle loop of `generateAll` (`geometry.ts`
lines 65-91): grid position, pixel color, brightness depth, and the
alpha-tested size.  Returns (position, color, size); `rv` indexes this
particle's `Math.random()` draws. -/
def imagePart (w h : ℕ) (d : List ℕ) (rv : ℕ → ℚ) (i : ℕ) :
    (JNum × JNum × JNum) × (JNum × JNum × JNum) × JNum :=
  let col := i % w
  let row := i / w
  let pixelI := (row * w + col) * 4
  let r := jdiv (pix d pixelI) (.fin 255)
  let g := jdiv (pix d (pixelI + 1)) (.fin 255)
  let b := jdiv (pix d (pixelI + 2)) (.fin 255)
  let brightness := jdiv (jadd (jadd r g) b) (.fin 3)
  let aspect := jdiv (.fin w) (.fin h)
  let scaleX := jmul (.fin SCALE_Y) aspect
  let dx := jmul (jsub (jdiv (.fin col) (.fin w)) (.fin (1/2))) scaleX
  let dy := jmul (jsub (.fin (1/2)) (jdiv (.fin row) (.fin h))) (.fin SCALE_Y)
  let dz := jmul brightness (.fin 3)
  let size : JNum :=
    if jlt (pix d (pixelI + 3)) (.fin 50) then .fin 0
    else .fin (rv 0 * (2/5) + 1/10)
  ((dx, dy, dz), (r, g, b), size)

/-- The procedural fallback branch of the per-particle loop (`geometry.ts`
lines 92-108): a random point on a tapered vertical profile with warm color
tones. -/
def fallbackPart (rv : ℕ → ℚ) (cosO sinO : ℚ → JNum) :
    (JNum × JNum × JNum) × (JNum × JNum × JNum) × JNum :=
  let theta := rv 1 * PI_JS * 2
  let hgt := rv 2 * SCALE_Y - SCALE_Y / 2
  let taper := jadd (jmul (cosO (hgt * (3/10))) (.fin (3/2))) (.fin 2)
  let dx := jmul (cosO theta) taper
  let dy : JNum := .fin hgt
  let dz := jmul (sinO theta) taper
  ((dx, dy, dz), (.fin 1, .fin (7/10 + rv 3 * (3/10)), .fin (4/5 + rv 4 * (1/5))), .fin (3/10))

/-- `generateGalaxyShape` (`geometry.ts` lines 15-29): random angle, radius in
`[5, 35)`, one of three spiral arms, and the spiral-wound final angle. -/
def galaxyPart (rv : ℕ → ℚ) (cosO sinO : ℚ → JNum) : JNum × JNum × JNum :=
  let angle := rv 5 * PI_JS * 2
  let radius := rv 6 * 30 + 5
  let spiralOffset := radius * (1/2)
  let armOffset := (↑(Int.floor (rv 7 * 3)) * (PI_JS * 2)) / 3
  let finalAngle := angle + spiralOffset + armOffset
  let x := jmul (cosO finalAngle) (.fin radius)
  let z := jmul (sinO finalAngle) (.fin radius)
  let y : JNum := .fin ((rv 8 - 1/2) * (10 + radius * (1/5)))
  (x, y, z)

/-- One particle's output of `generateAll` after sanitization: image target
(`targetTree`, lifted by 2), galaxy target (`targetCloud`), base color, base
size, and the initial position (a copy of the image target). -/
structure ParticleOut where
  tree : JNum × JNum × JNum
  cloud : JNum × JNum × JNum
  color : JNum × JNum × JNum
  size : JNum
  pos : JNum × JNum × JNum

/-- The body of the per-particle loop of `generateAll` (`geometry.ts` lines
57-142): branch on pixel data availability, sanitize every coordinate, lift
the image target by 2, sanitize colors to `1`, and copy the image target into
the initial position. -/
def genParticle (w h : ℕ) (imgData : Option (List ℕ)) (rv : ℕ → ℚ)
    (cosO sinO : ℚ → JNum) (i : ℕ) : ParticleOut :=
  let base :=
    match imgData with
    | some d => if 0 < w then imagePart w h d rv i else fallbackPart rv cosO sinO
    | none => fallbackPart rv cosO sinO
  let tree := (sanitize0 base.1.1, jadd (sanitize0 base.1.2.1) (.fin 2), sanitize0 base.1.2.2)
  let color := (sanitizeC base.2.1.1, sanitizeC base.2.1.2.1, sanitizeC base.2.1.2.2)
  let g := galaxyPart rv cosO sinO
  let cloud := (sanitize0 g.1, sanitize0 g.2.1, sanitize0 g.2.2)
  { tree := tree, cloud := cloud, color := color, size := base.2.2, pos := tree }

/-- Flatten a list of 3-component vectors into a flat coordinate array. -/
def flat3 (f : α → JNum × JNum × JNum) : List α → List JNum
  | [] => []
  | p :: ps => (f p).1 :: (f p).2.1 :: (f p).2.2 :: flat3 f ps

/-- The five buffers returned by the builder (`PointCloudData` in
`types.ts`). -/
structure PointCloudData where
  positions : List JNum
  targetTree : List JNum
  targetCloud : List JNum
  colors : List JNum
  sizes : List JNum

/-- The particle count chosen by `generateAll` (`geometry.ts` line 33): the
exact pixel count when the image grid is non-degenerate, otherwise
`CONFIG.PARTICLE_COUNT`. -/
def validCountOf (w h : ℕ) : ℕ :=
  if 0 < w ∧ 0 < h then w * h else PARTICLE_COUNT

/-- `generateAll` (`geometry.ts` lines 31-145): build the five flat buffers
for `validCountOf w h` particles.  `imgData` is the pixel buffer when
`getImageData` succeeded (`none` after a load failure, a degenerate grid, or
a tainted canvas); `randv i` are particle `i`'s `Math.random()` draws. -/
def generateAll (w h : ℕ) (imgData : Option (List ℕ)) (randv : ℕ → ℕ → ℚ)
    (cosO sinO : ℚ → JNum) : PointCloudData :=
  let parts := (List.range (validCountOf w h)).map
    (fun i => genParticle w h imgData (randv i) cosO sinO i)
  { positions := flat3 (fun p => p.pos) parts
    targetTree := flat3 (fun p => p.tree) parts
    targetCloud := flat3 (fun p => p.cloud) parts
    colors := flat3 (fun p => p.color) parts
    sizes := parts.map (fun p => p.size) }

/- ### Builder promise mechanics (`geometry.ts` lines 147-197) -/

/-- The completion events that can settle the builder's promise: a successful
load whose pixels were read, a load whose processing threw (no 2d context,
`drawImage` failure), a load error, and the 3-second safety timeout. -/
inductive BuildEvent where
  | loadOk (w h : ℕ) (pixels : List ℕ)
  | loadExcept
  | loadErr
  | timeout

/-- The point-cloud data each event resolves with: the processed image for a
successful load, `generateAll(0, 0)` (the procedural fallback) for all the
failure events. -/
def eventData (randv : ℕ → ℕ → ℚ) (cosO sinO : ℚ → JNum) : BuildEvent → PointCloudData
  | .loadOk w h px => generateAll w h (some px) randv cosO sinO
  | .loadExcept => generateAll 0 0 none randv cosO sinO
  | .loadErr => generateAll 0 0 none randv cosO sinO
  | .timeout => generateAll 0 0 none randv cosO sinO

/-- The promise's settlement state.  The executor of
`generateParticlesFromImage` receives only `resolve`; `rejected` records
whether any path ever rejects (none does). -/
structure BuildPromise where
  hasResolved : Bool
  value : Option PointCloudData
  rejected : Bool

/-- The promise before any event has fired. -/
def initPromise : BuildPromise := ⟨false, none, false⟩

/-- `safeResolve` (`geometry.ts` lines 147-152): resolve only once; later
calls are no-ops. -/
def safeResolve (p : BuildPromise) (d : PointCloudData) : BuildPromise :=
  if p.hasResolved then p else ⟨true, some d, p.rejected⟩

/-- Processing one completion event: every handler (`onload`, its `catch`,
`onerror`, the timeout) funnels into `safeResolve`. -/
def handleEvent (randv : ℕ → ℕ → ℚ) (cosO sinO : ℚ → JNum)
    (p : BuildPromise) (e : BuildEvent) : BuildPromise :=
  safeResolve p (eventData randv cosO sinO e)

/- ### Raw gesture classification (`HandTracker.tsx` lines 169-197) -/

/-- One normalized 3D hand landmark. -/
structure Landmark where
  x : ℚ
  y : ℚ
  z : ℚ

/-- Euclidean distance in landmark space
(`Math.sqrt(dx*dx + dy*dy + dz*dz)`). -/
noncomputable def lmDist (a b : Landmark) : ℝ :=
  Real.sqrt (((a.x - b.x) * (a.x - b.x) + (a.y - b.y) * (a.y - b.y)
    + (a.z - b.z) * (a.z - b.z) : ℚ))

/-- The pinch distance: thumb tip (landmark 4) to index tip (landmark 8). -/
noncomputable def pinchDist (lms : Fin 21 → Landmark) : ℝ := lmDist (lms 4) (lms 8)

/-- The mean distance from the wrist (landmark 0) to the five fingertips
(landmarks 4, 8, 12, 16, 20). -/
noncomputable def avgTipDist (lms : Fin 21 → Landmark) : ℝ :=
  (lmDist (lms 4) (lms 0) + lmDist (lms 8) (lms 0) + lmDist (lms 12) (lms 0)
    + lmDist (lms 16) (lms 0) + lmDist (lms 20) (lms 0)) / 5

open Classical in
/-- The raw single-frame classification (`HandTracker.tsx` lines 189-197):
`PINCH` when the pinch distance is below `0.05`, else `CLOSED_FIST` when the
mean tip distance is below `0.25`, else `OPEN_PALM`. -/
noncomputable def classifyRaw (lms : Fin 21 → Landmark) : GestureType :=
  if pinchDist lms < 1/20 then .PINCH
  else if avgTipDist lms < 1/4 then .CLOSED_FIST
  else .OPEN_PALM

/-- The reported hand position (`HandTracker.tsx` lines 170-171): the
horizontally mirrored wrist position `(1 - landmark[0].x, landmark[0].y)`. -/
def handPosition (lms : Fin 21 → Landmark) : ℚ × ℚ :=
  (1 - (lms 0).x, (lms 0).y)

/-- All landmarks at the origin (a degenerate but well-typed hand frame). -/
def lmZero : Fin 21 → Landmark := fun _ => ⟨0, 0, 0⟩

/- ### Theorems -/

/-- Claim C1: with `velocity = 0` (and hence for repeated `step` calls with an
unchanged gesture), every per-frame color write outputs exactly the immutable
base colors: the sparkle boost requires `velocity > 0.1`, and the output is
recomputed from the base color buffer each frame, never from the previous
frame's output, so every call writes byte-identical colors with no drift. -/
theorem c1_color_idempotent (base : List (ℚ × ℚ × ℚ)) (smoothT : ℚ) (i : ℕ) :
    writeColors smoothT 0 i base = base := by
  induction base generalizing i with
  | nil => rfl
  | cons c rest ih =>
    have hne : ¬((1:ℚ)/10 < 0) := by norm_num
    simp only [writeColors, ih]
    rw [if_neg (fun hc => hne hc.2.2)]

lemma stepProgress_mem (p : ℚ) (g : GestureType) (d : ℚ)
    (hp0 : 0 ≤ p) (hp1 : p ≤ 1) (hd : 0 ≤ d) :
    0 ≤ stepProgress p g d ∧ stepProgress p g d ≤ 1 := by
  simp only [stepProgress]
  set sd := min d (1/20 : ℚ) with hsd
  have hsd0 : 0 ≤ sd := le_min hd (by norm_num)
  have hsd1 : sd ≤ 1/20 := min_le_right _ _
  set t : ℚ := if g = GestureType.OPEN_PALM then 1 else 0 with ht
  have ht0 : 0 ≤ t := by rw [ht]; split_ifs <;> norm_num
  have ht1 : t ≤ 1 := by rw [ht]; split_ifs <;> norm_num
  set ls : ℚ := if 1/2 < t then 3/2 else 5/2 with hls
  have hls0 : 0 ≤ ls := by rw [hls]; split_ifs <;> norm_num
  have hls5 : ls ≤ 5/2 := by rw [hls]; split_ifs <;> norm_num
  have hs0 : 0 ≤ sd * ls := mul_nonneg hsd0 hls0
  have hs1 : sd * ls ≤ 1 := by nlinarith
  have h1 : 0 ≤ (1 - sd * ls) * p + sd * ls * t := by nlinarith
  have h2 : (1 - sd * ls) * p + sd * ls * t ≤ 1 := by nlinarith
  split_ifs with hsnap
  · constructor <;> norm_num
  · exact ⟨h1, h2⟩

lemma runProgress_aux (steps : List (GestureType × ℚ)) (p : ℚ)
    (hp0 : 0 ≤ p) (hp1 : p ≤ 1) (hd : ∀ x ∈ steps, 0 ≤ x.2) :
    0 ≤ steps.foldl (fun q st => stepProgress q st.1 st.2) p ∧
      steps.foldl (fun q st => stepProgress q st.1 st.2) p ≤ 1 := by
  induction steps generalizing p with
  | nil => exact ⟨hp0, hp1⟩
  | cons st rest ih =>
    have h := stepProgress_mem p st.1 st.2 hp0 hp1 (hd st (by simp))
    exact ih _ h.1 h.2 (fun x hx => hd x (by simp [hx]))

/-- Claim C2: `transitionProgress` starts at `0` and, for every sequence of
frames with `dt ≥ 0` and arbitrary gestures, stays inside `[0, 1]` after
every call: the update `p += (targetT - p) * min(dt, 0.05) * speed` (speed
`1.5` opening, `2.5` closing) with the snap-to-zero below `0.001` never
leaves the interval. -/
theorem c2_progress_bounded (steps : List (GestureType × ℚ))
    (hd : ∀ x ∈ steps, 0 ≤ x.2) (k : ℕ) :
    0 ≤ runProgress (steps.take k) ∧ runProgress (steps.take k) ≤ 1 :=
  runProgress_aux _ 0 le_rfl (by norm_num)
    (fun x hx => hd x (List.take_subset k steps hx))

/-- Witness for C2 at a concrete two-frame sequence. -/
theorem c2_progress_bounded_witness :
    0 ≤ runProgress ([(GestureType.OPEN_PALM, 1/60), (GestureType.NONE, 1/30)].take 2) ∧
      runProgress ([(GestureType.OPEN_PALM, 1/60), (GestureType.NONE, 1/30)].take 2) ≤ 1 :=
  c2_progress_bounded [(GestureType.OPEN_PALM, 1/60), (GestureType.NONE, 1/30)]
    (by
      intro x hx
      simp only [List.mem_cons, List.not_mem_nil, or_false] at hx
      rcases hx with rfl | rfl <;> norm_num) 2

lemma clampVelocity_spec (u : JNum) :
    ∃ q : ℚ, clampVelocity u = .fin q ∧ 0 ≤ q ∧ q ≤ 3 ∧ (q = 0 ∨ 1/100 ≤ q) := by
  cases u with
  | fin a =>
    by_cases h1 : a < 1/100
    · refine ⟨0, ?_, le_rfl, by norm_num, Or.inl rfl⟩
      have e1 : jlt (.fin a) (.fin (1/100)) = true := by
        simpa [jlt] using h1
      norm_num [clampVelocity, e1, jlt, h1]
    · have e1 : jlt (.fin a) (.fin (1/100)) = false := by
        simpa [jlt] using h1
      by_cases h2 : (3:ℚ) < a
      · refine ⟨3, ?_, by norm_num, le_rfl, Or.inr (by norm_num)⟩
        have e2 : jlt (.fin 3) (.fin a) = true := by
          simpa [jlt] using h2
        norm_num [clampVelocity, e1, e2]
        all_goals intro h
        all_goals exact JNum.noConfusion h
      · refine ⟨a, ?_, by linarith [not_lt.mp h1], not_lt.mp h2,
          Or.inr (by linarith [not_lt.mp h1])⟩
        have e2 : jlt (.fin 3) (.fin a) = false := by
          simpa [jlt] using h2
        norm_num [clampVelocity, e1, e2]
        all_goals intro h
        all_goals exact JNum.noConfusion h
  | pinf => exact ⟨3, by decide, by norm_num, le_rfl, Or.inr (by norm_num)⟩
  | ninf => exact ⟨0, by decide, le_rfl, by norm_num, Or.inl rfl⟩
  | nan => exact ⟨0, by decide, le_rfl, by norm_num, Or.inl rfl⟩

/-- Claim C9: after the velocity update of every `step` call the stored
velocity is a finite rational `q` with `0 ≤ q ≤ 3`; any eased value below
`0.01` has been snapped to exactly `0` (so `q = 0` or `q ≥ 0.01`), and the
`NaN` produced on the degenerate paths (e.g. a zero displacement over a zero
`safeDelta`) is reset to `0` by the final guard. -/
theorem c9_velocity_invariant (v : ℚ) (hand : HandInput) (wasDetected : Bool)
    (prevX prevY : ℚ) (sqrtO : ℚ → ℚ) (delta : ℚ) :
    (∃ q : ℚ, stepVelocity v hand wasDetected prevX prevY sqrtO delta = .fin q ∧
      0 ≤ q ∧ q ≤ 3 ∧ (q = 0 ∨ 1/100 ≤ q)) ∧ clampVelocity JNum.nan = .fin 0 := by
  constructor
  · simpa [stepVelocity] using
      clampVelocity_spec (easeVelocity v
        (targetVelocityOf hand wasDetected prevX prevY sqrtO (min delta (1/20)))
        (min delta (1/20)))
  · simp [clampVelocity, jlt]

lemma safeBound_finite (v d : JNum) (hd : d.isFinite = true) :
    (safeBound v d).isFinite = true := by
  unfold safeBound
  split_ifs with h
  · exact hd
  · push_neg at h
    simpa using h.1

lemma zipWith_getElem3 (f : α → β → γ) :
    ∀ (l1 : List α) (l2 : List β) (j : ℕ),
      (List.zipWith f l1 l2)[j]? = l1[j]?.bind fun a => (l2[j]?).map (f a) := by
  intro l1
  induction l1 with
  | nil => intro l2 j; simp
  | cons a l1 ih =>
    intro l2 j
    cases l2 with
    | nil => simp
    | cons b l2 =>
      cases j with
      | zero => simp
      | succ j => simpa using ih l2 j

lemma mem_writeFramePositions :
    ∀ (computed tree : List (JNum × JNum × JNum)) (p : JNum × JNum × JNum),
      p ∈ writeFramePositions computed tree →
      ∃ c ∈ computed, ∃ d ∈ tree,
        p = (safeBound c.1 d.1, safeBound c.2.1 d.2.1, safeBound c.2.2 d.2.2) := by
  intro computed
  induction computed with
  | nil => intro tree p hp; simp [writeFramePositions] at hp
  | cons c cs ih =>
    intro tree p hp
    cases tree with
    | nil => simp [writeFramePositions] at hp
    | cons d ds =>
      simp only [writeFramePositions, List.zipWith_cons_cons, List.mem_cons] at hp
      rcases hp with rfl | hp
      · exact ⟨c, by simp, d, by simp, rfl⟩
      · obtain ⟨c', hc', d', hd', hpd⟩ := ih ds p hp
        exact ⟨c', by simp [hc'], d', by simp [hd'], hpd⟩

/-- Claim C4: per axis, a computed coordinate that is non-finite or of
magnitude above `200` is replaced by that particle's image-target
(`targetTree`) coordinate (first conjunct); the buffer write is per-particle,
so changing one particle's computed values (e.g. injecting a non-finite
intermediate) never changes any other particle's output (second conjunct);
and when the image targets are finite, every coordinate written to the
position buffer is finite (third conjunct). -/
theorem c4_safety_clamp :
    (∀ v d : JNum, (v.isFinite = false ∨ jlt (.fin 200) (jabs v) = true) →
      safeBound v d = d)
    ∧ (∀ computed computed' tree : List (JNum × JNum × JNum), ∀ j : ℕ,
        computed[j]? = computed'[j]? →
        (writeFramePositions computed tree)[j]? = (writeFramePositions computed' tree)[j]?)
    ∧ (∀ computed tree : List (JNum × JNum × JNum),
        (∀ d ∈ tree, d.1.isFinite = true ∧ d.2.1.isFinite = true ∧ d.2.2.isFinite = true) →
        ∀ p ∈ writeFramePositions computed tree,
          p.1.isFinite = true ∧ p.2.1.isFinite = true ∧ p.2.2.isFinite = true) := by
  refine ⟨?_, ?_, ?_⟩
  · intro v d h
    rw [safeBound, if_pos h]
  · intro computed computed' tree j h
    rw [writeFramePositions, writeFramePositions, zipWith_getElem3, zipWith_getElem3, h]
  · intro computed tree htree p hp
    obtain ⟨c, -, d, hd, rfl⟩ := mem_writeFramePositions computed tree p hp
    obtain ⟨h1, h2, h3⟩ := htree d hd
    exact ⟨safeBound_finite _ _ h1, safeBound_finite _ _ h2, safeBound_finite _ _ h3⟩

/-- Witness for C4: a `NaN` x-coordinate is replaced by the image-target
coordinate; an out-of-range change in particle 0 leaves particle 1's output
unchanged; and the written triple is finite. -/
theorem c4_safety_clamp_witness :
    safeBound JNum.nan (.fin 7) = .fin 7
    ∧ (writeFramePositions [(JNum.nan, .fin 1, .fin 2), (.fin 1, .fin 1, .fin 1)]
        [(.fin 4, .fin 5, .fin 6), (.fin 0, .fin 0, .fin 0)])[1]? =
      (writeFramePositions [(JNum.pinf, .fin 9, .fin 9), (.fin 1, .fin 1, .fin 1)]
        [(.fin 4, .fin 5, .fin 6), (.fin 0, .fin 0, .fin 0)])[1]?
    ∧ ((safeBound JNum.nan (.fin 4), safeBound (JNum.fin 1) (.fin 5),
        safeBound (JNum.fin 2) (.fin 6)) : JNum × JNum × JNum).1.isFinite = true :=
  ⟨c4_safety_clamp.1 JNum.nan (.fin 7) (Or.inl rfl),
   c4_safety_clamp.2.1 _ _ _ 1 rfl,
   (c4_safety_clamp.2.2 [(JNum.nan, .fin 1, .fin 2)] [(.fin 4, .fin 5, .fin 6)]
      (by intro d hd; simp only [List.mem_singleton] at hd; subst hd; exact ⟨rfl, rfl, rfl⟩)
      _ (by simp [writeFramePositions])).1⟩

lemma handleEvent_resolved (randv : ℕ → ℕ → ℚ) (cosO sinO : ℚ → JNum)
    (p : BuildPromise) (e : BuildEvent) (h : p.hasResolved = true) :
    handleEvent randv cosO sinO p e = p := by
  simp [handleEvent, safeResolve, h]

lemma foldl_resolved (randv : ℕ → ℕ → ℚ) (cosO sinO : ℚ → JNum)
    (es : List BuildEvent) (p : BuildPromise) (h : p.hasResolved = true) :
    es.foldl (handleEvent randv cosO sinO) p = p := by
  induction es with
  | nil => rfl
  | cons e es ih => rw [List.foldl_cons, handleEvent_resolved _ _ _ _ _ h, ih]

/-- Claim C6: for every image source and every order/combination of the
completion events (load success, load-processing exception, load error,
timeout), the build promise settles exactly once and always by resolution:
the first event wins and fixes the resolved `PointCloudData`, the promise is
never rejected, and every callback that fires on an already-resolved promise
is a no-op. -/
theorem c6_resolve_once (randv : ℕ → ℕ → ℚ) (cosO sinO : ℚ → JNum)
    (e : BuildEvent) (es : List BuildEvent) :
    ((es.foldl (handleEvent randv cosO sinO)
        (handleEvent randv cosO sinO initPromise e)).hasResolved = true
      ∧ (es.foldl (handleEvent randv cosO sinO)
          (handleEvent randv cosO sinO initPromise e)).value =
            some (eventData randv cosO sinO e)
      ∧ (es.foldl (handleEvent randv cosO sinO)
          (handleEvent randv cosO sinO initPromise e)).rejected = false)
    ∧ (∀ (p : BuildPromise) (e' : BuildEvent), p.hasResolved = true →
        handleEvent randv cosO sinO p e' = p) := by
  have h1 : handleEvent randv cosO sinO initPromise e =
      ⟨true, some (eventData randv cosO sinO e), false⟩ := by
    simp [handleEvent, safeResolve, initPromise]
  rw [h1, foldl_resolved _ _ _ _ _ rfl]
  exact ⟨⟨rfl, rfl, rfl⟩, fun p e' h => handleEvent_resolved _ _ _ _ _ h⟩

/-- Witness for C6: with concrete oracles, a timeout followed by a late
error callback resolves once with the timeout's fallback data, and a resolved
promise absorbs further events. -/
theorem c6_resolve_once_witness :
    (([BuildEvent.loadErr].foldl
        (handleEvent (fun _ _ => 0) (fun _ => JNum.fin 1) (fun _ => JNum.fin 0))
        (handleEvent (fun _ _ => 0) (fun _ => JNum.fin 1) (fun _ => JNum.fin 0)
          initPromise BuildEvent.timeout)).value =
      some (eventData (fun _ _ => 0) (fun _ => JNum.fin 1) (fun _ => JNum.fin 0)
        BuildEvent.timeout))
    ∧ handleEvent (fun _ _ => 0) (fun _ => JNum.fin 1) (fun _ => JNum.fin 0)
        ⟨true, none, false⟩ BuildEvent.loadErr = ⟨true, none, false⟩ :=
  ⟨(c6_resolve_once (fun _ _ => 0) (fun _ => JNum.fin 1) (fun _ => JNum.fin 0)
      BuildEvent.timeout [BuildEvent.loadErr]).1.2.1,
   (c6_resolve_once (fun _ _ => 0) (fun _ => JNum.fin 1) (fun _ => JNum.fin 0)
      BuildEvent.timeout []).2 ⟨true, none, false⟩ BuildEvent.loadErr rfl⟩

lemma generateAll_sizes_length (w h : ℕ) (imgData : Option (List ℕ))
    (randv : ℕ → ℕ → ℚ) (cosO sinO : ℚ → JNum) :
    (generateAll w h imgData randv cosO sinO).sizes.length = validCountOf w h := by
  simp [generateAll]

/-- Claim C7 counterexample: on the unreadable-pixel-buffer path
(`getImageData` throws inside `generateAll`, e.g. a tainted canvas for a
square image rasterized to a 158×158 grid), the fallback shape is generated
with `158 * 158 = 24964` particles, not `PARTICLE_COUNT = 25000`. -/
theorem c7_fallback_count_counterexample :
    (generateAll 158 158 none (fun _ _ => 0) (fun _ => JNum.fin 1)
      (fun _ => JNum.fin 0)).sizes.length ≠ PARTICLE_COUNT := by
  rw [generateAll_sizes_length]
  decide

/-- Claim C7 (amended): the load-error and timeout paths generate the
procedural fallback with the fixed default particle count
(`PARTICLE_COUNT = 25000`), but the unreadable-pixel-buffer (tainted canvas)
path generates the fallback with the image grid's `cols * rows` particles
instead. -/
theorem c7_fallback_count (randv : ℕ → ℕ → ℚ) (cosO sinO : ℚ → JNum) :
    ((eventData randv cosO sinO .loadErr).sizes.length = PARTICLE_COUNT
      ∧ (eventData randv cosO sinO .timeout).sizes.length = PARTICLE_COUNT)
    ∧ (∀ w h : ℕ, 0 < w → 0 < h →
        (generateAll w h none randv cosO sinO).sizes.length = w * h) := by
  refine ⟨⟨?_, ?_⟩, ?_⟩
  · rw [eventData, generateAll_sizes_length]; rfl
  · rw [eventData, generateAll_sizes_length]; rfl
  · intro w h hw hh
    rw [generateAll_sizes_length, validCountOf, if_pos ⟨hw, hh⟩]

/-- Witness for C7 at the 158×158 grid and concrete oracles. -/
theorem c7_fallback_count_witness :
    (eventData (fun _ _ => 0) (fun _ => JNum.fin 1) (fun _ => JNum.fin 0)
        BuildEvent.loadErr).sizes.length = PARTICLE_COUNT
    ∧ (generateAll 158 158 none (fun _ _ => 0) (fun _ => JNum.fin 1)
        (fun _ => JNum.fin 0)).sizes.length = 158 * 158 :=
  ⟨(c7_fallback_count (fun _ _ => 0) (fun _ => JNum.fin 1) (fun _ => JNum.fin 0)).1.1,
   (c7_fallback_count (fun _ _ => 0) (fun _ => JNum.fin 1) (fun _ => JNum.fin 0)).2
      158 158 (by norm_num) (by norm_num)⟩

lemma sanitize0_finite (v : JNum) : (sanitize0 v).isFinite = true := by
  cases v <;> rfl

lemma sanitizeC_finite (v : JNum) : (sanitizeC v).isFinite = true := by
  cases v <;> rfl

lemma jadd_fin2_finite (v : JNum) (hv : v.isFinite = true) :
    (jadd v (.fin 2)).isFinite = true := by
  cases v
  · rfl
  all_goals simp [JNum.isFinite] at hv

lemma flat3_length (f : α → JNum × JNum × JNum) (l : List α) :
    (flat3 f l).length = 3 * l.length := by
  induction l with
  | nil => rfl
  | cons p ps ih => simp only [flat3, List.length_cons, ih]; omega

lemma flat3_mem {f : α → JNum × JNum × JNum} {l : List α} {x : JNum}
    (hx : x ∈ flat3 f l) :
    ∃ p ∈ l, x = (f p).1 ∨ x = (f p).2.1 ∨ x = (f p).2.2 := by
  induction l with
  | nil => simp [flat3] at hx
  | cons p ps ih =>
    simp only [flat3, List.mem_cons] at hx
    rcases hx with rfl | rfl | rfl | hx
    · exact ⟨p, by simp, Or.inl rfl⟩
    · exact ⟨p, by simp, Or.inr (Or.inl rfl)⟩
    · exact ⟨p, by simp, Or.inr (Or.inr rfl)⟩
    · obtain ⟨p', hp', hcomp⟩ := ih hx
      exact ⟨p', by simp [hp'], hcomp⟩

lemma flat3_congr {f g : α → JNum × JNum × JNum} (l : List α)
    (h : ∀ p ∈ l, f p = g p) : flat3 f l = flat3 g l := by
  induction l with
  | nil => rfl
  | cons p ps ih =>
    simp only [flat3]
    rw [h p (by simp), ih (fun q hq => h q (by simp [hq]))]

lemma genParticle_pos_eq (w h : ℕ) (d : Option (List ℕ)) (rv : ℕ → ℚ)
    (cosO sinO : ℚ → JNum) (i : ℕ) :
    (genParticle w h d rv cosO sinO i).pos = (genParticle w h d rv cosO sinO i).tree := rfl

lemma genParticle_tree_finite (w h : ℕ) (d : Option (List ℕ)) (rv : ℕ → ℚ)
    (cosO sinO : ℚ → JNum) (i : ℕ) :
    (genParticle w h d rv cosO sinO i).tree.1.isFinite = true
      ∧ (genParticle w h d rv cosO sinO i).tree.2.1.isFinite = true
      ∧ (genParticle w h d rv cosO sinO i).tree.2.2.isFinite = true := by
  simp only [genParticle]
  exact ⟨sanitize0_finite _, jadd_fin2_finite _ (sanitize0_finite _), sanitize0_finite _⟩

lemma genParticle_cloud_finite (w h : ℕ) (d : Option (List ℕ)) (rv : ℕ → ℚ)
    (cosO sinO : ℚ → JNum) (i : ℕ) :
    (genParticle w h d rv cosO sinO i).cloud.1.isFinite = true
      ∧ (genParticle w h d rv cosO sinO i).cloud.2.1.isFinite = true
      ∧ (genParticle w h d rv cosO sinO i).cloud.2.2.isFinite = true := by
  simp only [genParticle]
  exact ⟨sanitize0_finite _, sanitize0_finite _, sanitize0_finite _⟩

lemma genParticle_color_finite (w h : ℕ) (d : Option (List ℕ)) (rv : ℕ → ℚ)
    (cosO sinO : ℚ → JNum) (i : ℕ) :
    (genParticle w h d rv cosO sinO i).color.1.isFinite = true
      ∧ (genParticle w h d rv cosO sinO i).color.2.1.isFinite = true
      ∧ (genParticle w h d rv cosO sinO i).color.2.2.isFinite = true := by
  simp only [genParticle]
  exact ⟨sanitizeC_finite _, sanitizeC_finite _, sanitizeC_finite _⟩

lemma genParticle_size_finite (w h : ℕ) (d : Option (List ℕ)) (rv : ℕ → ℚ)
    (cosO sinO : ℚ → JNum) (i : ℕ) :
    (genParticle w h d rv cosO sinO i).size.isFinite = true := by
  rcases d with - | d
  · rfl
  · by_cases hw : 0 < w
    · simp only [genParticle, imagePart, if_pos hw]
      split_ifs <;> rfl
    · simp only [genParticle, if_neg hw]
      rfl

/-- Claim C5: for every builder outcome (pixels decoded, load error, timeout,
or unreadable pixel buffer) and arbitrary `Math.random`/`Math.cos`/`Math.sin`
outcomes, `generateAll` produces `positions`, `targetTree`, `targetCloud` and
`colors` of length exactly `3 * N` and `sizes` of length `N` for the single
particle count `N = validCountOf w h ≥ 1`; every stored element is finite;
and the initial positions equal the image-target array element for element. -/
theorem c5_build_shape (w h : ℕ) (imgData : Option (List ℕ)) (randv : ℕ → ℕ → ℚ)
    (cosO sinO : ℚ → JNum) :
    1 ≤ validCountOf w h
    ∧ (generateAll w h imgData randv cosO sinO).positions.length = 3 * validCountOf w h
    ∧ (generateAll w h imgData randv cosO sinO).targetTree.length = 3 * validCountOf w h
    ∧ (generateAll w h imgData randv cosO sinO).targetCloud.length = 3 * validCountOf w h
    ∧ (generateAll w h imgData randv cosO sinO).colors.length = 3 * validCountOf w h
    ∧ (generateAll w h imgData randv cosO sinO).sizes.length = validCountOf w h
    ∧ (∀ x ∈ (generateAll w h imgData randv cosO sinO).positions, x.isFinite = true)
    ∧ (∀ x ∈ (generateAll w h imgData randv cosO sinO).targetTree, x.isFinite = true)
    ∧ (∀ x ∈ (generateAll w h imgData randv cosO sinO).targetCloud, x.isFinite = true)
    ∧ (∀ x ∈ (generateAll w h imgData randv cosO sinO).colors, x.isFinite = true)
    ∧ (∀ x ∈ (generateAll w h imgData randv cosO sinO).sizes, x.isFinite = true)
    ∧ (generateAll w h imgData randv cosO sinO).positions =
        (generateAll w h imgData randv cosO sinO).targetTree := by
  have hcount : 1 ≤ validCountOf w h := by
    rw [validCountOf]
    split_ifs with hwh
    · exact Nat.one_le_iff_ne_zero.mpr (Nat.mul_ne_zero hwh.1.ne' hwh.2.ne')
    · norm_num [PARTICLE_COUNT]
  refine ⟨hcount, ?_, ?_, ?_, ?_, ?_, ?_, ?_, ?_, ?_, ?_, ?_⟩
  · simp [generateAll, flat3_length]
  · simp [generateAll, flat3_length]
  · simp [generateAll, flat3_length]
  · simp [generateAll, flat3_length]
  · simp [generateAll]
  · intro x hx
    simp only [generateAll] at hx
    obtain ⟨p, hp, hc⟩ := flat3_mem hx
    simp only [List.mem_map, List.mem_range] at hp
    obtain ⟨i, -, rfl⟩ := hp
    have := genParticle_tree_finite w h imgData (randv i) cosO sinO i
    rw [genParticle_pos_eq] at hc
    rcases hc with rfl | rfl | rfl
    · exact this.1
    · exact this.2.1
    · exact this.2.2
  · intro x hx
    simp only [generateAll] at hx
    obtain ⟨p, hp, hc⟩ := flat3_mem hx
    simp only [List.mem_map, List.mem_range] at hp
    obtain ⟨i, -, rfl⟩ := hp
    have := genParticle_tree_finite w h imgData (randv i) cosO sinO i
    rcases hc with rfl | rfl | rfl
    · exact this.1
    · exact this.2.1
    · exact this.2.2
  · intro x hx
    simp only [generateAll] at hx
    obtain ⟨p, hp, hc⟩ := flat3_mem hx
    simp only [List.mem_map, List.mem_range] at hp
    obtain ⟨i, -, rfl⟩ := hp
    have := genParticle_cloud_finite w h imgData (randv i) cosO sinO i
    rcases hc with rfl | rfl | rfl
    · exact this.1
    · exact this.2.1
    · exact this.2.2
  · intro x hx
    simp only [generateAll] at hx
    obtain ⟨p, hp, hc⟩ := flat3_mem hx
    simp only [List.mem_map, List.mem_range] at hp
    obtain ⟨i, -, rfl⟩ := hp
    have := genParticle_color_finite w h imgData (randv i) cosO sinO i
    rcases hc with rfl | rfl | rfl
    · exact this.1
    · exact this.2.1
    · exact this.2.2
  · intro x hx
    simp only [generateAll, List.mem_map, List.mem_range] at hx
    obtain ⟨p, ⟨i, -, rfl⟩, rfl⟩ := hx
    exact genParticle_size_finite w h imgData (randv i) cosO sinO i
  · simp only [generateAll]
    refine flat3_congr _ ?_
    intro p hp
    simp only [List.mem_map, List.mem_range] at hp
    obtain ⟨i, -, rfl⟩ := hp
    exact genParticle_pos_eq w h imgData (randv i) cosO sinO i

/-- Claim C8: for a detected hand with 21 landmarks, the raw gesture is
`PINCH` when the thumb-tip/index-tip Euclidean distance is below `0.05`,
otherwise `CLOSED_FIST` when the mean wrist-to-fingertip distance is below
`0.25`, otherwise `OPEN_PALM`; and the reported hand position is the mirrored
wrist position `(1 - landmark[0].x, landmark[0].y)`. -/
theorem c8_raw_classification (lms : Fin 21 → Landmark) :
    (pinchDist lms < 1/20 → classifyRaw lms = .PINCH)
    ∧ (¬ pinchDist lms < 1/20 → avgTipDist lms < 1/4 → classifyRaw lms = .CLOSED_FIST)
    ∧ (¬ pinchDist lms < 1/20 → ¬ avgTipDist lms < 1/4 → classifyRaw lms = .OPEN_PALM)
    ∧ handPosition lms = (1 - (lms 0).x, (lms 0).y) := by
  refine ⟨?_, ?_, ?_, rfl⟩
  · intro h1
    rw [classifyRaw, if_pos h1]
  · intro h1 h2
    rw [classifyRaw, if_neg h1, if_pos h2]
  · intro h1 h2
    rw [classifyRaw, if_neg h1, if_neg h2]

lemma pinchDist_lmZero : pinchDist lmZero = 0 := by
  simp [pinchDist, lmDist, lmZero]

/-- Witness for C8: with all landmarks at the origin the pinch distance is
`0 < 0.05`, so the raw gesture is `PINCH`, and the reported position is the
mirrored wrist position. -/
theorem c8_raw_classification_witness :
    classifyRaw lmZero = GestureType.PINCH
    ∧ handPosition lmZero = (1 - (lmZero 0).x, (lmZero 0).y) :=
  ⟨(c8_raw_classification lmZero).1 (by rw [pinchDist_lmZero]; norm_num),
   (c8_raw_classification lmZero).2.2.2⟩

/- Stabilizer helper lemmas. -/

lemma stabStep_history (s : StabState) (raw : GestureType) :
    (stabStep s raw).history =
      if STABILITY_FRAMES < (s.history ++ [raw]).length then (s.history ++ [raw]).drop 1
      else s.history ++ [raw] := rfl

lemma stabStep_confirmed (s : StabState) (raw : GestureType) :
    (stabStep s raw).confirmed =
      if ((stabStep s raw).history.length == STABILITY_FRAMES
            && (stabStep s raw).history.all (· == raw))
          || (raw == GestureType.NONE
            && (lastN 3 (stabStep s raw).history).all (· == GestureType.NONE))
      then raw else s.confirmed := rfl

lemma stabStep_len (s : StabState) (raw : GestureType) (h : s.history.length ≤ 4) :
    (stabStep s raw).history.length = s.history.length + 1 := by
  rw [stabStep_history, if_neg]
  · simp
  · simp [STABILITY_FRAMES]
    omega

lemma mem_lastN {l : List α} {j : ℕ} {g : α} (h : g ∈ lastN j l) : g ∈ l :=
  List.drop_subset _ l h

lemma lastN_append_one (l : List α) (a : α) (j : ℕ) :
    lastN (j + 1) (l ++ [a]) = lastN j l ++ [a] := by
  unfold lastN
  have h1 : (l ++ [a]).length - (j + 1) = l.length - j := by
    simp only [List.length_append, List.length_cons, List.length_nil]
    omega
  rw [h1, List.drop_append_eq_append_drop]
  have h2 : l.length - j - l.length = 0 := by omega
  rw [h2]
  simp

lemma lastN_drop_one (l : List α) (j : ℕ) (hj : j + 1 ≤ l.length) :
    lastN j (l.drop 1) = lastN j l := by
  unfold lastN
  rw [List.drop_drop, List.length_drop]
  congr 1
  omega

lemma stepKeep (s : StabState) (raw : GestureType) (j : ℕ) (g : GestureType)
    (hj : j + 1 ≤ 5) (hg : g ∈ lastN j s.history) :
    g ∈ lastN (j + 1) (stabStep s raw).history := by
  rw [stabStep_history]
  split_ifs with hlen
  · rw [lastN_drop_one]
    · rw [lastN_append_one]
      exact List.mem_append_left _ hg
    · simp only [STABILITY_FRAMES, List.length_append, List.length_cons,
        List.length_nil] at hlen ⊢
      omega
  · rw [lastN_append_one]
    exact List.mem_append_left _ hg

lemma stepPush (s : StabState) (raw : GestureType) :
    raw ∈ lastN 1 (stabStep s raw).history := by
  rw [stabStep_history]
  split_ifs with hlen
  · rw [lastN_drop_one]
    · rw [lastN_append_one]
      simp
    · simp only [STABILITY_FRAMES, List.length_append, List.length_cons,
        List.length_nil] at hlen ⊢
      omega
  · rw [lastN_append_one]
    simp

lemma stepBlocked (s : StabState) (raw : GestureType) (hraw : raw ≠ .NONE)
    (g : GestureType) (hg : g ∈ (stabStep s raw).history) (hne : g ≠ raw) :
    (stabStep s raw).confirmed = s.confirmed := by
  rw [stabStep_confirmed, if_neg]
  intro hcond
  simp only [Bool.or_eq_true, Bool.and_eq_true, beq_iff_eq, List.all_eq_true] at hcond
  rcases hcond with ⟨-, hall⟩ | ⟨hrawN, -⟩
  · exact hne (hall g hg)
  · exact hraw hrawN

lemma stepBlockedLen (s : StabState) (raw : GestureType) (hraw : raw ≠ .NONE)
    (hlen : (stabStep s raw).history.length ≠ 5) :
    (stabStep s raw).confirmed = s.confirmed := by
  rw [stabStep_confirmed, if_neg]
  intro hcond
  simp only [Bool.or_eq_true, Bool.and_eq_true, beq_iff_eq, List.all_eq_true] at hcond
  rcases hcond with ⟨hlen5, -⟩ | ⟨hrawN, -⟩
  · exact hlen (by simpa [STABILITY_FRAMES] using hlen5)
  · exact hraw hrawN

lemma stabStep_confirmed_short (s : StabState) (raw : GestureType)
    (hc : s.confirmed = .NONE) (hl : s.history.length ≤ 3) :
    (stabStep s raw).confirmed = .NONE
      ∧ (stabStep s raw).history.length = s.history.length + 1 := by
  have hlen := stabStep_len s raw (by omega)
  refine ⟨?_, hlen⟩
  rw [stabStep_confirmed]
  split_ifs with hcond
  · simp only [Bool.or_eq_true, Bool.and_eq_true, beq_iff_eq, List.all_eq_true] at hcond
    rcases hcond with ⟨hlen5, -⟩ | ⟨hrawN, -⟩
    · exfalso
      rw [hlen] at hlen5
      simp [STABILITY_FRAMES] at hlen5
      omega
    · exact hrawN
  · exact hc

lemma stabRun_short (rs : List GestureType) (s : StabState)
    (hc : s.confirmed = .NONE) (hl : s.history.length + rs.length ≤ 4) :
    (stabRun s rs).confirmed = .NONE
      ∧ (stabRun s rs).history.length = s.history.length + rs.length := by
  induction rs generalizing s with
  | nil => exact ⟨hc, by simp [stabRun]⟩
  | cons a l ih =>
    simp only [List.length_cons] at hl
    have h1 := stabStep_confirmed_short s a hc (by omega)
    have h2 := ih (stabStep s a) h1.1 (by rw [h1.2]; omega)
    refine ⟨h2.1, ?_⟩
    show (stabRun (stabStep s a) l).history.length = _
    rw [h2.2, h1.2]
    simp only [List.length_cons]
    omega

/-- Claim C10: during the first frames after session start, while the
stabilizer's history holds fewer than 3 entries, a single raw `NONE` frame
confirms `NONE` immediately: the fast-exit rule inspects only the last
`min(3, length)` entries of the pushed history, so one undetected frame at
session start suffices, without waiting for 3 agreeing frames. -/
theorem c10_quick_none (rs : List GestureType) (hlen : rs.length < 3) :
    (stabStep (stabRun stabInit rs) .NONE).confirmed = .NONE := by
  have h := stabRun_short rs stabInit rfl (by simp [stabInit]; omega)
  exact (stabStep_confirmed_short _ _ h.1 (by rw [h.2]; simp [stabInit]; omega)).1

/-- Witness for C10: the very first frame being `NONE` confirms `NONE`. -/
theorem c10_quick_none_witness :
    (stabStep (stabRun stabInit []) .NONE).confirmed = .NONE :=
  c10_quick_none [] (by norm_num)

lemma stepO_shape (s : StabState) (t : List GestureType) (j : ℕ)
    (hh : s.history = t ++ List.replicate j GestureType.OPEN_PALM)
    (hl : t.length + j ≤ 5) (hj : j ≤ 4) :
    ∃ t', (stabStep s .OPEN_PALM).history =
        t' ++ List.replicate (j + 1) GestureType.OPEN_PALM
      ∧ t'.length + (j + 1) ≤ 5 := by
  rw [stabStep_history, hh]
  have hrep : (t ++ List.replicate j GestureType.OPEN_PALM) ++ [GestureType.OPEN_PALM]
      = t ++ List.replicate (j + 1) GestureType.OPEN_PALM := by
    rw [List.append_assoc, ← List.replicate_succ']
  rw [hrep]
  split_ifs with hlen
  · simp only [STABILITY_FRAMES, List.length_append, List.length_replicate] at hlen
    have htlen : 1 ≤ t.length := by omega
    refine ⟨t.drop 1, ?_, ?_⟩
    · rw [List.drop_append_eq_append_drop]
      have h0 : 1 - t.length = 0 := by omega
      rw [h0, List.drop_zero]
    · rw [List.length_drop]
      omega
  · simp only [STABILITY_FRAMES, List.length_append, List.length_replicate,
      not_lt] at hlen
    exact ⟨t, rfl, by omega⟩

lemma stepO_final (s : StabState) (t : List GestureType)
    (hh : s.history = t ++ List.replicate 4 GestureType.OPEN_PALM)
    (hl : t.length ≤ 1) :
    (stabStep s .OPEN_PALM).confirmed = GestureType.OPEN_PALM := by
  have hh2 : (stabStep s .OPEN_PALM).history =
      List.replicate 5 GestureType.OPEN_PALM := by
    rw [stabStep_history, hh]
    have hrep : (t ++ List.replicate 4 GestureType.OPEN_PALM) ++ [GestureType.OPEN_PALM]
        = t ++ List.replicate 5 GestureType.OPEN_PALM := by
      rw [List.append_assoc, ← List.replicate_succ']
    rw [hrep]
    rcases t with - | ⟨g, t'⟩
    · simp [STABILITY_FRAMES]
    · rcases t' with - | ⟨g2, t''⟩
      · simp [STABILITY_FRAMES]
      · simp at hl
  rw [stabStep_confirmed, hh2, if_pos]
  decide

lemma debounce_noO_aux (s : StabState)
    (hno : ∀ g ∈ s.history, g ≠ GestureType.OPEN_PALM) :
    ∀ k, k ≤ 9 → (stabRun s (debounceSeq.take k)).confirmed = s.confirmed := by
  set s1 := stabStep s .OPEN_PALM with hs1
  set s2 := stabStep s1 .OPEN_PALM with hs2
  set s3 := stabStep s2 .OPEN_PALM with hs3
  set s4 := stabStep s3 .OPEN_PALM with hs4
  set s5 := stabStep s4 .CLOSED_FIST with hs5
  set s6 := stabStep s5 .OPEN_PALM with hs6
  set s7 := stabStep s6 .OPEN_PALM with hs7
  set s8 := stabStep s7 .OPEN_PALM with hs8
  set s9 := stabStep s8 .OPEN_PALM with hs9
  have estep : s1.confirmed = s.confirmed ∧ s2.confirmed = s1.confirmed
      ∧ s3.confirmed = s2.confirmed ∧ s4.confirmed = s3.confirmed := by
    by_cases hnil : s.history = []
    · have l1 : s1.history.length = 1 := by
        rw [hs1, stabStep_len s _ (by rw [hnil]; simp), hnil]
        simp
      have l2 : s2.history.length = 2 := by
        rw [hs2, stabStep_len s1 _ (by omega), l1]
      have l3 : s3.history.length = 3 := by
        rw [hs3, stabStep_len s2 _ (by omega), l2]
      have l4 : s4.history.length = 4 := by
        rw [hs4, stabStep_len s3 _ (by omega), l3]
      refine ⟨?_, ?_, ?_, ?_⟩
      · rw [hs1]; exact stepBlockedLen s _ (by decide) (by rw [← hs1]; omega)
      · rw [hs2]; exact stepBlockedLen s1 _ (by decide) (by rw [← hs2]; omega)
      · rw [hs3]; exact stepBlockedLen s2 _ (by decide) (by rw [← hs3]; omega)
      · rw [hs4]; exact stepBlockedLen s3 _ (by decide) (by rw [← hs4]; omega)
    · have hpos : 0 < (lastN 1 s.history).length := by
        unfold lastN
        rw [List.length_drop]
        have := List.length_pos.mpr hnil
        omega
      obtain ⟨e0, he0⟩ := List.exists_mem_of_ne_nil _ (List.ne_nil_of_length_pos hpos)
      have he0no : e0 ≠ GestureType.OPEN_PALM := hno e0 (mem_lastN he0)
      have m1 : e0 ∈ lastN 2 s1.history := by
        rw [hs1]; exact stepKeep s _ 1 e0 (by norm_num) he0
      have m2 : e0 ∈ lastN 3 s2.history := by
        rw [hs2]; exact stepKeep s1 _ 2 e0 (by norm_num) m1
      have m3 : e0 ∈ lastN 4 s3.history := by
        rw [hs3]; exact stepKeep s2 _ 3 e0 (by norm_num) m2
      refine ⟨?_, ?_, ?_, ?_⟩
      · have hm := mem_lastN m1
        rw [hs1] at hm ⊢
        exact stepBlocked s _ (by decide) e0 hm he0no
      · have hm := mem_lastN m2
        rw [hs2] at hm ⊢
        exact stepBlocked s1 _ (by decide) e0 hm he0no
      · have hm := mem_lastN m3
        rw [hs3] at hm ⊢
        exact stepBlocked s2 _ (by decide) e0 hm he0no
      · have m4 : e0 ∈ lastN 5 s4.history := by
          rw [hs4]; exact stepKeep s3 _ 4 e0 (by norm_num) m3
        have hm := mem_lastN m4
        rw [hs4] at hm ⊢
        exact stepBlocked s3 _ (by decide) e0 hm he0no
  obtain ⟨e1, e2, e3, e4⟩ := estep
  have hO4 : GestureType.OPEN_PALM ∈ lastN 1 s4.history := by
    rw [hs4]; exact stepPush s3 _
  have hO5 : GestureType.OPEN_PALM ∈ lastN 2 s5.history := by
    rw [hs5]; exact stepKeep s4 _ 1 _ (by norm_num) hO4
  have e5 : s5.confirmed = s4.confirmed := by
    have hm := mem_lastN hO5
    rw [hs5] at hm ⊢
    exact stepBlocked s4 _ (by decide) _ hm (by decide)
  have hF5 : GestureType.CLOSED_FIST ∈ lastN 1 s5.history := by
    rw [hs5]; exact stepPush s4 _
  have hF6 : GestureType.CLOSED_FIST ∈ lastN 2 s6.history := by
    rw [hs6]; exact stepKeep s5 _ 1 _ (by norm_num) hF5
  have e6 : s6.confirmed = s5.confirmed := by
    have hm := mem_lastN hF6
    rw [hs6] at hm ⊢
    exact stepBlocked s5 _ (by decide) _ hm (by decide)
  have hF7 : GestureType.CLOSED_FIST ∈ lastN 3 s7.history := by
    rw [hs7]; exact stepKeep s6 _ 2 _ (by norm_num) hF6
  have e7 : s7.confirmed = s6.confirmed := by
    have hm := mem_lastN hF7
    rw [hs7] at hm ⊢
    exact stepBlocked s6 _ (by decide) _ hm (by decide)
  have hF8 : GestureType.CLOSED_FIST ∈ lastN 4 s8.history := by
    rw [hs8]; exact stepKeep s7 _ 3 _ (by norm_num) hF7
  have e8 : s8.confirmed = s7.confirmed := by
    have hm := mem_lastN hF8
    rw [hs8] at hm ⊢
    exact stepBlocked s7 _ (by decide) _ hm (by decide)
  have hF9 : GestureType.CLOSED_FIST ∈ lastN 5 s9.history := by
    rw [hs9]; exact stepKeep s8 _ 4 _ (by norm_num) hF8
  have e9 : s9.confirmed = s8.confirmed := by
    have hm := mem_lastN hF9
    rw [hs9] at hm ⊢
    exact stepBlocked s8 _ (by decide) _ hm (by decide)
  intro k hk
  interval_cases k
  · rfl
  · exact e1
  · exact e2.trans e1
  · exact e3.trans (e2.trans e1)
  · exact e4.trans (e3.trans (e2.trans e1))
  · exact e5.trans (e4.trans (e3.trans (e2.trans e1)))
  · exact e6.trans (e5.trans (e4.trans (e3.trans (e2.trans e1))))
  · exact e7.trans (e6.trans (e5.trans (e4.trans (e3.trans (e2.trans e1)))))
  · exact e8.trans (e7.trans (e6.trans (e5.trans (e4.trans (e3.trans (e2.trans e1))))))
  · exact e9.trans (e8.trans (e7.trans (e6.trans (e5.trans (e4.trans (e3.trans (e2.trans e1)))))))

lemma fiveO_confirms (s : StabState) (hl : s.history.length ≤ 5) :
    (stabRun s (List.replicate 5 GestureType.OPEN_PALM)).confirmed
      = GestureType.OPEN_PALM := by
  obtain ⟨t1, hh1, hl1⟩ :=
    stepO_shape s s.history 0 (by simp) (by simpa using hl) (by norm_num)
  obtain ⟨t2, hh2, hl2⟩ := stepO_shape _ t1 1 hh1 hl1 (by norm_num)
  obtain ⟨t3, hh3, hl3⟩ := stepO_shape _ t2 2 hh2 hl2 (by norm_num)
  obtain ⟨t4, hh4, hl4⟩ := stepO_shape _ t3 3 hh3 hl3 (by norm_num)
  exact stepO_final _ t4 hh4 (by omega)

/-- Claim C3 counterexample: the claim quantifies over every starting
stabilizer state, but from the reachable state obtained by feeding
`NONE, OPEN_PALM, OPEN_PALM, OPEN_PALM, OPEN_PALM` from session start
(history `[NONE, OPEN_PALM, OPEN_PALM, OPEN_PALM, OPEN_PALM]`, confirmed
`NONE`), the very first update of the 4-1-4 sequence reaches five consecutive
`OPEN_PALM` entries and changes the confirmed gesture. -/
theorem c3_debounce_counterexample :
    (stabRun (stabRun stabInit
        [GestureType.NONE, .OPEN_PALM, .OPEN_PALM, .OPEN_PALM, .OPEN_PALM])
        (debounceSeq.take 1)).confirmed
      ≠ (stabRun stabInit
        [GestureType.NONE, .OPEN_PALM, .OPEN_PALM, .OPEN_PALM, .OPEN_PALM]).confirmed := by
  decide

/-- Claim C3 (amended): for every starting stabilizer state whose history
contains no `OPEN_PALM` entry (in particular the session-start state), the
raw sequence of 4 `OPEN_PALM`, 1 `CLOSED_FIST`, 4 `OPEN_PALM` never changes
the confirmed gesture at any of the 9 updates; feeding 5 consecutive
`OPEN_PALM` frames to any state with at most 5 history entries (an invariant
of all reachable states) confirms `OPEN_PALM`; and in general the confirmed
gesture changes only when all 5 history entries equal the current raw value,
or when the raw value is `NONE` and the last `min(3, length)` entries are all
`NONE`. -/
theorem c3_debounce :
    (∀ s : StabState, (∀ g ∈ s.history, g ≠ GestureType.OPEN_PALM) →
      ∀ k, k ≤ 9 → (stabRun s (debounceSeq.take k)).confirmed = s.confirmed)
    ∧ (∀ s : StabState, s.history.length ≤ 5 →
      (stabRun s (List.replicate 5 GestureType.OPEN_PALM)).confirmed
        = GestureType.OPEN_PALM)
    ∧ (∀ (s : StabState) (raw : GestureType),
      (stabStep s raw).confirmed ≠ s.confirmed →
      ((stabStep s raw).history.length = 5 ∧ ∀ g ∈ (stabStep s raw).history, g = raw)
        ∨ (raw = GestureType.NONE
          ∧ ∀ g ∈ lastN 3 (stabStep s raw).history, g = GestureType.NONE)) := by
  refine ⟨fun s hno => debounce_noO_aux s hno, fun s hl => fiveO_confirms s hl, ?_⟩
  intro s raw hne
  rw [stabStep_confirmed] at hne
  by_cases hcond : (((stabStep s raw).history.length == STABILITY_FRAMES
        && (stabStep s raw).history.all (· == raw))
      || (raw == GestureType.NONE
        && (lastN 3 (stabStep s raw).history).all (· == GestureType.NONE))) = true
  · simp only [Bool.or_eq_true, Bool.and_eq_true, beq_iff_eq, List.all_eq_true] at hcond
    rcases hcond with ⟨hlen, hall⟩ | ⟨hrawN, hlast⟩
    · exact Or.inl ⟨by simpa [STABILITY_FRAMES] using hlen, hall⟩
    · exact Or.inr ⟨hrawN, hlast⟩
  · rw [if_neg hcond] at hne
    exact absurd rfl hne

/-- Witness for C3: the 4-1-4 sequence leaves the session-start state's
confirmed gesture unchanged; five `OPEN_PALM` frames from the session-start
state confirm `OPEN_PALM`; and a state whose confirmed gesture does change on
a `NONE` frame satisfies the fast-exit condition. -/
theorem c3_debounce_witness :
    (stabRun stabInit (debounceSeq.take 9)).confirmed = stabInit.confirmed
    ∧ (stabRun ⟨[], GestureType.NONE⟩
        (List.replicate 5 GestureType.OPEN_PALM)).confirmed = GestureType.OPEN_PALM
    ∧ (((stabStep ⟨[], GestureType.OPEN_PALM⟩ GestureType.NONE).history.length = 5
          ∧ ∀ g ∈ (stabStep ⟨[], GestureType.OPEN_PALM⟩ GestureType.NONE).history,
              g = GestureType.NONE)
        ∨ (GestureType.NONE = GestureType.NONE
          ∧ ∀ g ∈ lastN 3 (stabStep ⟨[], GestureType.OPEN_PALM⟩ GestureType.NONE).history,
              g = GestureType.NONE)) :=
  ⟨c3_debounce.1 stabInit (by simp [stabInit]) 9 (by norm_num),
   c3_debounce.2.1 ⟨[], GestureType.NONE⟩ (by simp),
   c3_debounce.2.2 ⟨[], GestureType.OPEN_PALM⟩ GestureType.NONE (by decide)⟩
